import Mathlib

/-!
Verification of the Visualization Preparation Engine of
`data_visualization_app.py`: a shallow embedding of the column
classifier, the chart-kind recommendation heuristic, the outlier
pipeline, the per-chart aggregation/binning algorithms and the
paging/search view state, with theorems checking the specified
properties against the embedded code.

Scalars are modelled over `ℚ` (the Python floats appearing in the
engine are all produced by exact decimal input and rational
arithmetic on the inputs considered) and table cells as an inductive
`Value` of number / string / null.
-/

namespace DataVis

/-- A table cell: a number, a string, or a missing value (NaN/None). -/
inductive Value where
  | num (q : ℚ)
  | str (s : String)
  | null
deriving DecidableEq, Repr

/-- Digits of a decimal literal folded into a natural number
(`natOfDigits ['4','2'] = 42`). -/
def natOfDigits (l : List Char) : ℕ :=
  l.foldl (fun a c => a * 10 + (c.toNat - 48)) 0

/-- Unsigned decimal literal parser: `"12"`, `"12.5"`, `".5"`, `"5."`.
Models the grammar accepted by Python `float` / `pd.to_numeric` for
plain (exponent-free) decimal literals. -/
def parseUnsigned (l : List Char) : Option ℚ :=
  match l.span (· ≠ '.') with
  | (ip, []) =>
      if ip ≠ [] ∧ ip.all Char.isDigit then some (natOfDigits ip : ℚ) else none
  | (ip, _ :: fp) =>
      if (ip ≠ [] ∨ fp ≠ []) ∧ ip.all Char.isDigit ∧ fp.all Char.isDigit then
        some ((natOfDigits ip : ℚ) + (natOfDigits fp : ℚ) / (10 : ℚ) ^ fp.length)
      else none

/-- Surrounding whitespace removal on a character list (the string
form of Python `str.strip()` as applied by `float`). -/
def trimChars (l : List Char) : List Char :=
  ((l.dropWhile Char.isWhitespace).reverse.dropWhile Char.isWhitespace).reverse

/-- Numeric coercion of a string cell, as done by
`pd.to_numeric(col, errors="coerce")` on a string value: optional
sign then a decimal literal, surrounding whitespace ignored; anything
else coerces to NaN (`none`). -/
def strToNum (s : String) : Option ℚ :=
  match trimChars s.toList with
  | [] => none
  | '-' :: rest => (parseUnsigned rest).map (fun q => -q)
  | '+' :: rest => parseUnsigned rest
  | l => parseUnsigned l

/-- Numeric coercion of a cell (`pd.to_numeric(·, errors="coerce")`):
numbers stay, strings are parsed, nulls coerce to NaN (`none`). -/
def toNum (v : Value) : Option ℚ :=
  match v with
  | .num q => some q
  | .str s => strToNum s
  | .null => none

/-- `pd.to_numeric(col, errors="coerce").notna().any()`: the column has
at least one numeric-coercible, non-missing value. -/
def anyNumeric (col : List Value) : Bool :=
  col.any (fun v => (toNum v).isSome)

/-- `Series.nunique()`: number of distinct non-missing values. -/
def nunique (col : List Value) : ℕ :=
  ((col.filter (· ≠ Value.null)).dedup).length

/-- `suggest_visualization` (src lines 434-483): the chart-kind
recommendation written to `self.chart_type`, as a function of the two
selected columns. -/
def suggest_visualization (xcol ycol : List Value) : String :=
  let y_is_numeric := anyNumeric ycol
  if !y_is_numeric then "bar"
  else if nunique xcol ≤ 7 then "pie"
  else if 50 < nunique xcol then
    if anyNumeric xcol then "scatter" else "histogram"
  else "bar"

/-- The recommendation policy exactly as the specification words it, as
a function of the two column profiles (y numeric?, x distinct count,
x numeric?). -/
def recommendOfProfile (yNum : Bool) (xDistinct : ℕ) (xNum : Bool) : String :=
  if !yNum then "bar"
  else if xDistinct ≤ 7 then "pie"
  else if 50 < xDistinct then
    if xNum then "scatter" else "histogram"
  else "bar"

/-- Positional access into a list of values, 0 past the end (the
pipeline only indexes in bounds). -/
def nthD : List ℚ → ℕ → ℚ
  | [], _ => 0
  | x :: _, 0 => x
  | _ :: xs, n+1 => nthD xs n

/-- `Series.quantile(q)` / `np.percentile(xs, 100*q)` with the default
linear interpolation: on the ascending sort `s` of the values, with
`h = q*(n-1)` and `i = ⌊h⌋`, the value `s[i] + (h-i)*(s[i+1]-s[i])`. -/
def quantile (xs : List ℚ) (q : ℚ) : ℚ :=
  let s := List.insertionSort (· ≤ ·) xs
  match s.length with
  | 0 => 0
  | (m+1) =>
    let h : ℚ := q * m
    let i : ℕ := h.floor.toNat
    nthD s i + (h - (i:ℚ)) * (nthD s (min (i+1) m) - nthD s i)

/-- `Series.max()` (0 on an empty column, unreachable in the pipeline). -/
def listMax : List ℚ → ℚ
  | [] => 0
  | x :: xs => xs.foldl max x

/-- `Series.min()` (0 on an empty column, unreachable in the pipeline). -/
def listMin : List ℚ → ℚ
  | [] => 0
  | x :: xs => xs.foldl min x

/-- The extreme-outlier test of `create_plot` (src lines 1255-1258):
`max > Q3 + 5·IQR` over the coerced y column. -/
def extremeOutlierTest (ys : List ℚ) : Bool :=
  let Q1 := quantile ys (1/4)
  let Q3 := quantile ys (3/4)
  let IQR := Q3 - Q1
  decide (Q3 + 5 * IQR < listMax ys)

/-- The `remove` outlier policy of `create_plot` (src lines 1290-1306):
rows carry their coerced y value in the second component.  Tukey fences
`[Q1-1.5·IQR, Q3+1.5·IQR]` filter the rows; if fewer than 10 remain the
filter is redone with the 1st/99th percentile fence on the original
coerced column. -/
def removePolicy {α : Type} (rows : List (α × ℚ)) : List (α × ℚ) :=
  let ys := rows.map Prod.snd
  let Q1 := quantile ys (1/4)
  let Q3 := quantile ys (3/4)
  let IQR := Q3 - Q1
  let lower_bound := Q1 - 3/2 * IQR
  let upper_bound := Q3 + 3/2 * IQR
  let kept := rows.filter (fun r => decide (lower_bound ≤ r.2) && decide (r.2 ≤ upper_bound))
  if kept.length < 10 then
    let lower' := quantile ys (1/100)
    let upper' := quantile ys (99/100)
    rows.filter (fun r => decide (lower' ≤ r.2) && decide (r.2 ≤ upper'))
  else kept

/-- The `log_scale` outlier policy of `create_plot` (src lines
1320-1329): replace non-positive y values by a tenth of the minimal
strictly positive y value when one exists, then flag `use_log_scale`. -/
def logScalePolicy {α : Type} (rows : List (α × ℚ)) : List (α × ℚ) × Bool :=
  let rows' :=
    if rows.any (fun r => decide (r.2 ≤ 0)) then
      let positives := (rows.filter (fun r => decide (0 < r.2))).map Prod.snd
      if positives.isEmpty then rows
      else
        let min_positive := listMin positives
        rows.map (fun r => if r.2 ≤ 0 then (r.1, min_positive * (1/10)) else r)
    else rows
  (rows', true)

/-- Python `int(·)` truncation toward zero on a rational value. -/
def pyInt (q : ℚ) : ℤ :=
  if 0 ≤ q then q.floor else -((-q).floor)

/-- The histogram bin-count selection of `create_plot` (src lines
1628-1640).  `cbrtN` stands for the value of the Python float
expression `len(plot_df) ** (1/3)`, abstracted as a positive rational
parameter (its exact value never affects the clamp bounds). -/
def histNumBins (ys : List ℚ) (cbrtN : ℚ) : ℤ :=
  let q75 := quantile ys (3/4)
  let q25 := quantile ys (1/4)
  let iqr := q75 - q25
  if 0 < iqr then
    let bin_width := 2 * iqr / cbrtN
    let data_range := listMax ys - listMin ys
    max 10 (min 50 (if 0 < bin_width then pyInt (data_range / bin_width) else 20))
  else
    min 30 (max 5 ((Nat.sqrt ys.length : ℤ)))

/-- C1: the recommended chart kind follows the fixed ordered policy
(non-numeric y → bar; ≤ 7 distinct x → pie; > 50 distinct x → scatter
when x numeric-coercible else histogram; otherwise bar), and the result
is a function of the two column profiles only (hence deterministic). -/
theorem suggest_matches_spec_policy (xcol ycol : List Value) :
    suggest_visualization xcol ycol =
      recommendOfProfile (anyNumeric ycol) (nunique xcol) (anyNumeric xcol) := rfl

/-- The rows within the Tukey fences `[Q1-1.5·IQR, Q3+1.5·IQR]` of the
coerced y column, as the specification words the `remove` filter. -/
def tukeyKept {α : Type} (rows : List (α × ℚ)) : List (α × ℚ) :=
  rows.filter
    (fun r =>
      decide (quantile (rows.map Prod.snd) (1/4) -
          3/2 * (quantile (rows.map Prod.snd) (3/4) - quantile (rows.map Prod.snd) (1/4)) ≤ r.2) &&
      decide (r.2 ≤ quantile (rows.map Prod.snd) (3/4) +
          3/2 * (quantile (rows.map Prod.snd) (3/4) - quantile (rows.map Prod.snd) (1/4))))

/-- The rows within the percentile fence `[1st pct, 99th pct]` of the
coerced y column, the fallback filter worded by the specification. -/
def pctKept {α : Type} (rows : List (α × ℚ)) : List (α × ℚ) :=
  rows.filter
    (fun r => decide (quantile (rows.map Prod.snd) (1/100) ≤ r.2) &&
              decide (r.2 ≤ quantile (rows.map Prod.snd) (99/100)))

/-- C2: under the `remove` policy the retained rows are exactly those
within the Tukey fences `[Q1-1.5·IQR, Q3+1.5·IQR]`; when fewer than 10
rows survive that filter, the retained rows are instead exactly those
within the percentile fence `[1st pct, 99th pct]` of the original
coerced column. -/
theorem removePolicy_fences {α : Type} (rows : List (α × ℚ)) :
    (10 ≤ (tukeyKept rows).length → removePolicy rows = tukeyKept rows) ∧
    ((tukeyKept rows).length < 10 → removePolicy rows = pctKept rows) := by
  refine ⟨fun h => ?_, fun h => ?_⟩
  · simp only [removePolicy, tukeyKept] at h ⊢
    split
    · omega
    · rfl
  · simp only [removePolicy, tukeyKept, pctKept] at h ⊢
    split
    · rfl
    · omega

/-- Two-row sample table used to exercise the percentile-fence branch
of the `remove` policy. -/
def rowsPair : List (ℕ × ℚ) := [(0, 1), (1, 3)]

theorem removePolicy_fences_witness :
    (tukeyKept rowsPair).length < 10 ∧ removePolicy rowsPair = pctKept rowsPair :=
  have hlen : (tukeyKept rowsPair).length < 10 :=
    lt_of_le_of_lt (List.length_filter_le _ _) (by norm_num [rowsPair])
  ⟨hlen, (removePolicy_fences rowsPair).2 hlen⟩

/-- The table of Scenario A: `{x:[1,2,3,4,5], y:[10,20,30,40,5000]}`,
rows paired as (x, y). -/
def scenarioRows : List (ℚ × ℚ) := [(1, 10), (2, 20), (3, 30), (4, 40), (5, 5000)]

/-- C3 counterexample: on `{x:[1,2,3,4,5], y:[10,20,30,40,5000]}` the
extreme-outlier test is true, but the `remove` policy leaves 3 rows,
not the claimed 4: the Tukey filter keeps only 4 < 10 rows, so the
percentile fence `[10.4, 4801.6]` is applied instead, which also drops
the row with y = 10. -/
theorem scenarioA_remove_leaves_three_not_four :
    extremeOutlierTest (scenarioRows.map Prod.snd) = true ∧
    (removePolicy scenarioRows).length = 3 ∧
    ¬ (removePolicy scenarioRows).length = 4 := by
  refine ⟨?_, ?_, ?_⟩
  · norm_num [extremeOutlierTest, scenarioRows, quantile, nthD, listMax, Rat.floor,
      Int.toNat, min_def, List.insertionSort, List.orderedInsert]
  · norm_num [removePolicy, scenarioRows, quantile, nthD, Rat.floor,
      Int.toNat, min_def, List.insertionSort, List.orderedInsert, List.filter]
  · norm_num [removePolicy, scenarioRows, quantile, nthD, Rat.floor,
      Int.toNat, min_def, List.insertionSort, List.orderedInsert, List.filter]

/-- C3 amended: on `{x:[1,2,3,4,5], y:[10,20,30,40,5000]}` the
extreme-outlier test `max > Q3 + 5·IQR` is true, and the `remove`
policy falls back to the percentile fence (the Tukey filter retains
4 < 10 rows) and keeps exactly the rows with y in {20, 30, 40}. -/
theorem scenarioA_remove_result :
    extremeOutlierTest (scenarioRows.map Prod.snd) = true ∧
    removePolicy scenarioRows = [(2, 20), (3, 30), (4, 40)] := by
  constructor
  · norm_num [extremeOutlierTest, scenarioRows, quantile, nthD, listMax, Rat.floor,
      Int.toNat, min_def, List.insertionSort, List.orderedInsert]
  · norm_num [removePolicy, scenarioRows, quantile, nthD, Rat.floor,
      Int.toNat, min_def, List.insertionSort, List.orderedInsert, List.filter]

/-- A y column with no strictly positive value on which the
extreme-outlier dialog is still reached (IQR = 0 and max > Q3). -/
def negRows : List (ℕ × ℚ) := [(0, -100), (1, -100), (2, -100), (3, -100), (4, -1)]

/-- C4 counterexample: on an all-non-positive y column that reaches the
outlier dialog, choosing `log_scale` leaves every value unchanged yet
still sets `use_log_scale = true` — the policy is applied even though
the claim says it is unavailable when no strictly positive value
exists. -/
theorem logScale_applied_without_positive_values :
    extremeOutlierTest (negRows.map Prod.snd) = true ∧
    (negRows.map Prod.snd).all (fun y => decide (y ≤ 0)) = true ∧
    (logScalePolicy negRows).2 = true ∧
    (logScalePolicy negRows).1 = negRows := by
  refine ⟨?_, by decide, rfl, ?_⟩
  · norm_num [extremeOutlierTest, negRows, quantile, nthD, listMax, Rat.floor,
      Int.toNat, min_def, List.insertionSort, List.orderedInsert]
  · norm_num [logScalePolicy, negRows, List.filter]

/-- C4 amended: `log_scale` always reports `use_log_scale = true`; when
some y value is ≤ 0 and a strictly positive value exists, every y ≤ 0
is replaced by 0.1 times the minimal strictly positive y value; when no
value is ≤ 0, or when no strictly positive value exists, the rows are
left unchanged (in the latter case the flag is still set — the policy
is not made unavailable). -/
theorem logScalePolicy_spec {α : Type} (rows : List (α × ℚ)) :
    (logScalePolicy rows).2 = true ∧
    (rows.any (fun r => decide (r.2 ≤ 0)) = false → (logScalePolicy rows).1 = rows) ∧
    (((rows.filter (fun r => decide (0 < r.2))).map Prod.snd).isEmpty = true →
      (logScalePolicy rows).1 = rows) ∧
    (rows.any (fun r => decide (r.2 ≤ 0)) = true →
      ((rows.filter (fun r => decide (0 < r.2))).map Prod.snd).isEmpty = false →
      (logScalePolicy rows).1 = rows.map (fun r =>
        if r.2 ≤ 0
        then (r.1, listMin ((rows.filter (fun r => decide (0 < r.2))).map Prod.snd) * (1/10))
        else r)) := by
  refine ⟨rfl, fun h => ?_, fun h => ?_, fun h1 h2 => ?_⟩
  · simp only [logScalePolicy, h, Bool.false_eq_true, if_false]
  · simp only [logScalePolicy, h, if_true]
    split <;> rfl
  · simp only [logScalePolicy, h1, h2, Bool.false_eq_true, if_true, if_false]

/-- A small table with one non-positive and one positive y value. -/
def mixedRows : List (ℕ × ℚ) := [(0, -2), (1, 5)]

theorem logScalePolicy_spec_witness :
    mixedRows.any (fun r => decide (r.2 ≤ 0)) = true ∧
    ((mixedRows.filter (fun r => decide (0 < r.2))).map Prod.snd).isEmpty = false ∧
    (logScalePolicy mixedRows).1 = mixedRows.map (fun r =>
      if r.2 ≤ 0
      then (r.1, listMin ((mixedRows.filter (fun r => decide (0 < r.2))).map Prod.snd) * (1/10))
      else r) :=
  ⟨by decide, by decide,
   (logScalePolicy_spec mixedRows).2.2.2 (by decide) (by decide)⟩

/-- C5: the histogram bin count is `max 10 (min 50 ·)` of the
Freedman–Diaconis estimate when IQR > 0, hence always in [10, 50], and
`min 30 (max 5 √N)` when IQR = 0, hence always in [5, 30]. -/
theorem histNumBins_in_range (ys : List ℚ) (cbrtN : ℚ)
    (_hdistinct : 4 ≤ ys.dedup.length) (_hcbrt : 0 < cbrtN) :
    (0 < quantile ys (3/4) - quantile ys (1/4) →
      10 ≤ histNumBins ys cbrtN ∧ histNumBins ys cbrtN ≤ 50) ∧
    (quantile ys (3/4) - quantile ys (1/4) = 0 →
      5 ≤ histNumBins ys cbrtN ∧ histNumBins ys cbrtN ≤ 30) := by
  constructor <;> intro h <;> simp only [histNumBins]
  · rw [if_pos h]
    exact ⟨le_max_left _ _, max_le (by norm_num) (min_le_left _ _)⟩
  · rw [if_neg (by rw [h]; exact lt_irrefl 0)]
    exact ⟨le_min (by norm_num) (le_max_left _ _), min_le_left _ _⟩

/-- A numeric column with four distinct values and positive IQR. -/
def ysFour : List ℚ := [1, 2, 3, 100]

theorem histNumBins_in_range_witness :
    4 ≤ ysFour.dedup.length ∧ (0:ℚ) < 2 ∧
    0 < quantile ysFour (3/4) - quantile ysFour (1/4) ∧
    10 ≤ histNumBins ysFour 2 ∧ histNumBins ysFour 2 ≤ 50 :=
  have hq : 0 < quantile ysFour (3/4) - quantile ysFour (1/4) := by
    norm_num [ysFour, quantile, nthD, Rat.floor, Int.toNat, min_def,
      List.insertionSort, List.orderedInsert]
  ⟨by decide, by norm_num,
   hq,
   ((histNumBins_in_range ysFour 2 (by decide) (by norm_num)).1 hq).1,
   ((histNumBins_in_range ysFour 2 (by decide) (by norm_num)).1 hq).2⟩

/-- Model of `DataFrame.sample(n=n, random_state=seed)`: a
deterministic selection of `n` of the rows, without replacement.  The
concrete permutation drawn by the pandas Mersenne-Twister generator is
abstracted as a seed-determined rotation; the properties the engine
relies on are preserved: the output is a function of `(seed, rows)`
only, its rows come from `rows`, and it has exactly `n` rows whenever
`n ≤ rows.length`. -/
def pdSample {α : Type} (seed n : ℕ) (rows : List α) : List α :=
  let k := seed % max 1 rows.length
  (rows.drop k ++ rows.take k).take n

/-- The scatter/line preparation of `create_plot` as far as row
selection is concerned (src lines 884-888 and 1331-1334): tables larger
than 1000 rows are pre-sampled at load with the constant seed 42; the y
column is then coerced and unconvertible rows dropped; a still-too-large
point set is sampled again with seed 42.  `env` models the run-varying
environment (e.g. wall-clock state) available to a run: the code never
consults it, its seed being the hard-coded constant 42. -/
def preparePoints {α : Type} (env : ℕ) (rows : List (α × Value)) : List (α × ℚ) :=
  let work := if 1000 < rows.length then pdSample 42 1000 rows else rows
  let plot := work.filterMap (fun r => (toNum r.2).map (fun q => (r.1, q)))
  if 1000 < plot.length then pdSample 42 1000 plot else plot

theorem pdSample_length {α : Type} (seed n : ℕ) (rows : List α) :
    (pdSample seed n rows).length = min n rows.length := by
  simp only [pdSample, List.length_take, List.length_append, List.length_drop]
  omega

theorem length_filterMap_of_isSome {α β : Type} (f : α → Option β) (l : List α)
    (h : ∀ x ∈ l, (f x).isSome) : (l.filterMap f).length = l.length := by
  induction l with
  | nil => rfl
  | cons a as ih =>
      obtain ⟨b, hb⟩ := Option.isSome_iff_exists.mp (h a (List.mem_cons_self a as))
      simp [List.filterMap_cons, hb, ih (fun x hx => h x (List.mem_cons_of_mem _ hx))]

theorem mem_of_mem_pdSample {α : Type} {seed n : ℕ} {rows : List α} {x : α}
    (h : x ∈ pdSample seed n rows) : x ∈ rows := by
  simp only [pdSample] at h
  rcases List.mem_append.mp (List.mem_of_mem_take h) with h' | h'
  · exact List.mem_of_mem_drop h'
  · exact List.mem_of_mem_take h'

/-- C6: the sampling of oversize tables ignores the run environment
(the seed is the constant 42, not time-based), so any two runs on the
same input rows produce the identical point set; and on a table with
more than 1000 all-numeric rows the prepared point count is exactly
1000 — in particular for a 1500-row table prepared as a scatter
chart. -/
theorem preparePoints_deterministic_and_capped {α : Type} (env₁ env₂ : ℕ)
    (rows : List (α × Value)) (hbig : 1000 < rows.length)
    (hnum : ∀ r ∈ rows, (toNum r.2).isSome) :
    preparePoints env₁ rows = preparePoints env₂ rows ∧
    (preparePoints env₁ rows).length = 1000 := by
  refine ⟨rfl, ?_⟩
  simp only [preparePoints, if_pos hbig]
  have hwork : (pdSample 42 1000 rows).length = 1000 := by
    rw [pdSample_length]; omega
  have hplot :
      ((pdSample 42 1000 rows).filterMap
        (fun r => (toNum r.2).map (fun q => (r.1, q)))).length = 1000 := by
    rw [length_filterMap_of_isSome]
    · exact hwork
    · intro x hx
      have := hnum x (mem_of_mem_pdSample hx)
      simpa [Option.isSome_map] using this
  rw [if_neg (by omega)]
  exact hplot

/-- A 1500-row table whose y column is the numeric constant 1. -/
def bigRows : List (ℕ × Value) := List.replicate 1500 (0, Value.num 1)

theorem preparePoints_deterministic_and_capped_witness :
    1000 < bigRows.length ∧
    preparePoints 0 bigRows = preparePoints 7 bigRows ∧
    (preparePoints 0 bigRows).length = 1000 :=
  have h1 : 1000 < bigRows.length := by
    unfold bigRows
    rw [List.length_replicate]
    norm_num
  have h2 : ∀ r ∈ bigRows, (toNum r.2).isSome := by
    intro r hr
    rw [List.eq_of_mem_replicate hr]
    rfl
  ⟨h1, (preparePoints_deterministic_and_capped 0 7 bigRows h1 h2).1,
       (preparePoints_deterministic_and_capped 0 7 bigRows h1 h2).2⟩

/-- The sum of the value column of a keyed series. -/
def sumVals (l : List (String × ℚ)) : ℚ :=
  (l.map Prod.snd).sum

/-- `plot_df.groupby(x_col)[y_col].sum()` (src line 1506): one entry
per distinct x key, carrying the sum of the y values of its rows. -/
def groupSum (rows : List (String × ℚ)) : List (String × ℚ) :=
  ((rows.map Prod.fst).dedup).map
    (fun k => (k, ((rows.filter (fun r => decide (r.1 = k))).map Prod.snd).sum))

/-- The negative-value remediation of the pie path (src lines
1509-1512): if any summed value is negative, all values are replaced by
their absolute value. -/
def pieAbs (g : List (String × ℚ)) : List (String × ℚ) :=
  if g.any (fun p => decide (p.2 < 0)) then g.map (fun p => (p.1, |p.2|)) else g

/-- The top-9 collapse of the pie path (src lines 1521-1527): with more
than 10 slices, compute the 9 largest values and the sum of the rest;
only when that sum is positive is `pie_data` reassigned to the top 9
plus a `"其他"` ("Other") slice — otherwise the series is left
un-truncated, all slices kept. -/
def pieCollapse (g : List (String × ℚ)) : List (String × ℚ) :=
  if 10 < g.length then
    let sorted := List.insertionSort (fun a b => b.2 < a.2) g
    let top_n := sorted.take 9
    let others_sum := sumVals (sorted.drop 9)
    if 0 < others_sum then top_n ++ [("其他", others_sum)] else g
  else g

theorem pieAbs_nonneg (g : List (String × ℚ)) : ∀ p ∈ pieAbs g, 0 ≤ p.2 := by
  intro p hp
  unfold pieAbs at hp
  split at hp
  · obtain ⟨q, _, hq⟩ := List.mem_map.mp hp
    rw [← hq]
    exact abs_nonneg _
  · next hany =>
      by_contra hneg
      push_neg at hneg
      exact hany (List.any_eq_true.mpr ⟨p, hp, by simp [hneg]⟩)

theorem sumVals_append (l₁ l₂ : List (String × ℚ)) :
    sumVals (l₁ ++ l₂) = sumVals l₁ + sumVals l₂ := by
  simp [sumVals, List.map_append, List.sum_append]

theorem pieCollapse_mass (g : List (String × ℚ)) (hnn : ∀ p ∈ g, 0 ≤ p.2) :
    sumVals (pieCollapse g) = sumVals g ∧ ∀ p ∈ pieCollapse g, 0 ≤ p.2 := by
  by_cases hlen : 10 < g.length
  · simp only [pieCollapse]
    rw [if_pos hlen]
    set sorted := List.insertionSort (fun a b => b.2 < a.2) g with hsort
    have hperm : sorted.Perm g := by rw [hsort]; exact List.perm_insertionSort _ _
    have hsum : sumVals sorted = sumVals g := (hperm.map Prod.snd).sum_eq
    have hnns : ∀ p ∈ sorted, 0 ≤ p.2 := fun p hp => hnn p (hperm.mem_iff.mp hp)
    have hsplit : sumVals (sorted.take 9) + sumVals (sorted.drop 9) = sumVals g := by
      rw [← hsum, ← sumVals_append, List.take_append_drop]
    have hothers : 0 ≤ sumVals (sorted.drop 9) := by
      apply List.sum_nonneg
      intro q hq
      obtain ⟨p, hp, hq'⟩ := List.mem_map.mp hq
      rw [← hq']
      exact hnns p (List.mem_of_mem_drop hp)
    split
    · next hpos =>
        refine ⟨?_, fun p hp => ?_⟩
        · rw [sumVals_append, show sumVals [("其他", sumVals (sorted.drop 9))] =
            sumVals (sorted.drop 9) by simp [sumVals]]
          exact hsplit
        · rcases List.mem_append.mp hp with h | h
          · exact hnns p (List.mem_of_mem_take h)
          · rw [List.mem_singleton.mp h]
            exact hothers
    · exact ⟨rfl, hnn⟩
  · simp only [pieCollapse]
    rw [if_neg hlen]
    exact ⟨rfl, hnn⟩

/-- Eleven single-row groups: nine positive sums and two zero sums, so
the remainder outside the top 9 sums to 0. -/
def rows11 : List (String × ℚ) :=
  [("a", 9), ("b", 8), ("c", 7), ("d", 6), ("e", 5), ("f", 4),
   ("g", 3), ("h", 2), ("i", 1), ("j", 0), ("k", 0)]

theorem groupSum_rows11 : groupSum rows11 = rows11 := by
  have hd : ((rows11.map Prod.fst).dedup) = rows11.map Prod.fst :=
    List.dedup_eq_self.mpr (by decide)
  simp only [groupSum]
  rw [hd]
  simp [rows11, List.filter_cons]

theorem pieAbs_rows11 : pieAbs rows11 = rows11 := by
  norm_num [pieAbs, rows11]

/-- C7 counterexample: with 11 groups of which the two smallest sum to
0, the remainder outside the top 9 sums to 0, so `pie_data` is never
reassigned and all 11 slices are kept — the claimed "top 9 are kept"
(which would leave 9 slices, the Other slice being created only for a
positive sum) does not hold. -/
theorem pieCollapse_keeps_all_when_remainder_zero :
    10 < (pieAbs (groupSum rows11)).length ∧
    (pieCollapse (pieAbs (groupSum rows11))).length = 11 ∧
    ¬ (pieCollapse (pieAbs (groupSum rows11))).length = 9 := by
  rw [groupSum_rows11, pieAbs_rows11]
  have h11 : (pieCollapse rows11).length = 11 := by
    norm_num [pieCollapse, rows11, sumVals, List.insertionSort, List.orderedInsert]
  refine ⟨by norm_num [rows11], h11, ?_⟩
  rw [h11]
  norm_num

/-- C7 amended: pie aggregation, after grouping by x, summing y and
taking absolute values when any sum is negative, collapses to the top 9
slices plus a single `"其他"`/Other slice only when more than 10 groups
exist and the remainder outside the top 9 sums to > 0; when that
remainder sums to 0 the series is left un-collapsed with all slices
kept.  In every case the sum of the resulting slice values equals the
sum of the pre-collapse values and no slice value is negative. -/
theorem pie_mass_conserved_and_nonneg (rows : List (String × ℚ)) :
    (10 < (pieAbs (groupSum rows)).length →
      0 < sumVals ((List.insertionSort (fun a b => b.2 < a.2)
          (pieAbs (groupSum rows))).drop 9) →
      pieCollapse (pieAbs (groupSum rows)) =
        (List.insertionSort (fun a b => b.2 < a.2) (pieAbs (groupSum rows))).take 9 ++
          [("其他", sumVals ((List.insertionSort (fun a b => b.2 < a.2)
            (pieAbs (groupSum rows))).drop 9))]) ∧
    (10 < (pieAbs (groupSum rows)).length →
      ¬ 0 < sumVals ((List.insertionSort (fun a b => b.2 < a.2)
          (pieAbs (groupSum rows))).drop 9) →
      pieCollapse (pieAbs (groupSum rows)) = pieAbs (groupSum rows)) ∧
    sumVals (pieCollapse (pieAbs (groupSum rows))) = sumVals (pieAbs (groupSum rows)) ∧
    (pieCollapse (pieAbs (groupSum rows))).all (fun p => decide (0 ≤ p.2)) = true := by
  obtain ⟨h1, h2⟩ := pieCollapse_mass (pieAbs (groupSum rows)) (pieAbs_nonneg _)
  refine ⟨fun ha hb => ?_, fun ha hb => ?_, h1,
    List.all_eq_true.mpr (fun p hp => by simp [h2 p hp])⟩
  · simp only [pieCollapse]
    rw [if_pos ha, if_pos hb]
  · simp only [pieCollapse]
    rw [if_pos ha, if_neg hb]

theorem pie_mass_conserved_and_nonneg_witness :
    10 < (pieAbs (groupSum rows11)).length ∧
    ¬ 0 < sumVals ((List.insertionSort (fun a b => b.2 < a.2)
        (pieAbs (groupSum rows11))).drop 9) ∧
    pieCollapse (pieAbs (groupSum rows11)) = pieAbs (groupSum rows11) := by
  have hlen : 10 < (pieAbs (groupSum rows11)).length := by
    rw [groupSum_rows11, pieAbs_rows11]
    norm_num [rows11]
  have hoth : ¬ 0 < sumVals ((List.insertionSort (fun a b => b.2 < a.2)
      (pieAbs (groupSum rows11))).drop 9) := by
    rw [groupSum_rows11, pieAbs_rows11]
    norm_num [rows11, sumVals, List.insertionSort, List.orderedInsert]
  exact ⟨hlen, hoth, (pie_mass_conserved_and_nonneg rows11).2.1 hlen hoth⟩

/-- Lexicographic comparison of strings by code points, the order
Python/pandas uses when sorting an object column of strings. -/
def charsLe : List Char → List Char → Bool
  | [], _ => true
  | _ :: _, [] => false
  | a :: as, b :: bs => if a = b then charsLe as bs else decide (a < b)

/-- String ≤ by code points. -/
def strLeB (a b : String) : Bool :=
  charsLe a.toList b.toList

/-- The line-chart x ordering of `create_plot` (src lines 1394-1451).
`dateParse` abstracts `pd.to_datetime(·)` (an external parser); the
code first requires the first five x values to all parse as dates
(`pd.to_datetime(sample, errors="raise")` on `head(5)`), then a strict
majority (`date_count > len * 0.5`) of parseable dates, sorting
chronologically and dropping unparseable rows; otherwise a strict
majority of numeric x values sorts numerically with drops; otherwise
the rows are sorted as strings with no drops.  Fewer than 2 rows before
or after the drops aborts with `none`. -/
def lineOrder (dateParse : String → Option ℤ) (rows : List (String × ℚ)) :
    Option (List (String × ℚ)) :=
  if rows.length < 2 then none else
  let head5ok := ((rows.map Prod.fst).take 5).all (fun s => (dateParse s).isSome)
  let dateCount := (rows.filter (fun r => (dateParse r.1).isSome)).length
  let sorted :=
    if head5ok && decide (rows.length < 2 * dateCount) then
      List.insertionSort
        (fun a b => (dateParse a.1).getD 0 ≤ (dateParse b.1).getD 0)
        (rows.filter (fun r => (dateParse r.1).isSome))
    else
      let numCount := (rows.filter (fun r => (strToNum r.1).isSome)).length
      if decide (rows.length < 2 * numCount) then
        List.insertionSort
          (fun a b => (strToNum a.1).getD 0 ≤ (strToNum b.1).getD 0)
          (rows.filter (fun r => (strToNum r.1).isSome))
      else
        List.insertionSort (fun a b => strLeB a.1 b.1 = true) rows
  if sorted.length < 2 then none else some sorted

/-- A date parser accepting nothing, for columns without dates. -/
def noDates : String → Option ℤ := fun _ => none

/-- Four rows whose x values are exactly 50% numeric: `a, 1, 2, b`. -/
def rows4 : List (String × ℚ) := [("a", 1), ("1", 1), ("2", 1), ("b", 1)]

/-- C8 counterexample: with exactly 50% of the x values numeric the
claim prescribes a numeric sort that drops the non-numeric rows, but
the code requires a strict majority (`> 50%`), so it falls through to
the lexicographic string sort and keeps all four rows. -/
theorem lineOrder_half_numeric_not_dropped :
    lineOrder noDates rows4 = some [("1", 1), ("2", 1), ("a", 1), ("b", 1)] ∧
    ¬ lineOrder noDates rows4 = some [("1", 1), ("2", 1)] := by
  constructor <;> decide

/-- C8 amended: line-chart x ordering sorts with this priority:
(a) if the first five x values all parse as dates and strictly more
than 50% of all x values parse as dates, rows are sorted
chronologically and unparseable rows dropped; (b) else if strictly more
than 50% of the x values parse as numbers, rows are sorted numerically
and unparseable rows dropped; (c) else rows are sorted lexicographically
as strings with no drops; the preparation fails (`none`) whenever fewer
than 2 rows are present before, or remain after, the drops. -/
theorem lineOrder_spec (d : String → Option ℤ) (rows : List (String × ℚ)) :
    (rows.length < 2 → lineOrder d rows = none) ∧
    (2 ≤ rows.length →
      ((rows.map Prod.fst).take 5).all (fun s => (d s).isSome) = true →
      rows.length < 2 * (rows.filter (fun r => (d r.1).isSome)).length →
      lineOrder d rows =
        (let kept := List.insertionSort
            (fun a b => (d a.1).getD 0 ≤ (d b.1).getD 0)
            (rows.filter (fun r => (d r.1).isSome))
         if kept.length < 2 then none else some kept)) ∧
    (2 ≤ rows.length →
      (((rows.map Prod.fst).take 5).all (fun s => (d s).isSome) = false ∨
        2 * (rows.filter (fun r => (d r.1).isSome)).length ≤ rows.length) →
      rows.length < 2 * (rows.filter (fun r => (strToNum r.1).isSome)).length →
      lineOrder d rows =
        (let kept := List.insertionSort
            (fun a b => (strToNum a.1).getD 0 ≤ (strToNum b.1).getD 0)
            (rows.filter (fun r => (strToNum r.1).isSome))
         if kept.length < 2 then none else some kept)) ∧
    (2 ≤ rows.length →
      (((rows.map Prod.fst).take 5).all (fun s => (d s).isSome) = false ∨
        2 * (rows.filter (fun r => (d r.1).isSome)).length ≤ rows.length) →
      2 * (rows.filter (fun r => (strToNum r.1).isSome)).length ≤ rows.length →
      lineOrder d rows =
        some (List.insertionSort (fun a b => strLeB a.1 b.1 = true) rows)) := by
  have hdate_false :
      (((rows.map Prod.fst).take 5).all (fun s => (d s).isSome) = false ∨
        2 * (rows.filter (fun r => (d r.1).isSome)).length ≤ rows.length) →
      (((rows.map Prod.fst).take 5).all (fun s => (d s).isSome) &&
        decide (rows.length < 2 * (rows.filter (fun r => (d r.1).isSome)).length)) = false := by
    rintro (h | h)
    · simp [h]
    · simp [Nat.not_lt.mpr h]
  refine ⟨fun h => ?_, fun h2 ha hb => ?_, fun h2 ha hb => ?_, fun h2 ha hb => ?_⟩
  · simp only [lineOrder]
    rw [if_pos h]
  · have hcond : (((rows.map Prod.fst).take 5).all (fun s => (d s).isSome) &&
        decide (rows.length < 2 * (rows.filter (fun r => (d r.1).isSome)).length)) = true := by
      simp [ha, hb]
    simp only [lineOrder]
    rw [if_neg (Nat.not_lt.mpr h2), hcond]
    rfl
  · have hcond2 :
        decide (rows.length < 2 * (rows.filter (fun r => (strToNum r.1).isSome)).length) = true := by
      simp [hb]
    simp only [lineOrder]
    rw [if_neg (Nat.not_lt.mpr h2), hdate_false ha, hcond2]
    rfl
  · have hcond2 :
        decide (rows.length < 2 * (rows.filter (fun r => (strToNum r.1).isSome)).length) = false := by
      simp [Nat.not_lt.mpr hb]
    simp only [lineOrder]
    rw [if_neg (Nat.not_lt.mpr h2), hdate_false ha, hcond2]
    simp [List.length_insertionSort, Nat.not_lt.mpr h2]

/-- Three rows whose x values are two-thirds numeric: `1, 2, x`. -/
def rows3 : List (String × ℚ) := [("1", 1), ("2", 1), ("x", 1)]

theorem lineOrder_spec_witness :
    2 ≤ rows3.length ∧
    ((rows3.map Prod.fst).take 5).all (fun s => (noDates s).isSome) = false ∧
    rows3.length < 2 * (rows3.filter (fun r => (strToNum r.1).isSome)).length ∧
    lineOrder noDates rows3 =
      (let kept := List.insertionSort
          (fun a b => (strToNum a.1).getD 0 ≤ (strToNum b.1).getD 0)
          (rows3.filter (fun r => (strToNum r.1).isSome))
       if kept.length < 2 then none else some kept) :=
  ⟨by decide, by decide, by decide,
   (lineOrder_spec noDates rows3).2.2.1 (by decide) (Or.inl (by decide)) (by decide)⟩

/-- A displayed table row: the string forms of its cells. -/
abbrev Row := List String

/-- The paging/search state of the data view: the loaded table, the
optional `filtered_df`, and the pagination counters. -/
structure ViewState where
  df : List Row
  filtered : Option (List Row)
  current_page : ℕ
  rows_per_page : ℕ
  total_pages : ℕ

/-- `math.ceil(a / b)` on natural counts. -/
def ceilDiv (a b : ℕ) : ℕ :=
  (a + b - 1) / b

/-- The rows of page `page`:
`l.iloc[page*per : min((page+1)*per, len(l))]`. -/
def pageSlice (l : List Row) (page per : ℕ) : List Row :=
  (l.drop (page * per)).take per

/-- Lower-casing of a character list (`str.lower()`). -/
def lowerChars (l : List Char) : List Char :=
  l.map Char.toLower

/-- `startsWithL pat l`: `pat` occurs at the head of `l`. -/
def startsWithL : List Char → List Char → Bool
  | [], _ => true
  | _ :: _, [] => false
  | a :: as, b :: bs => decide (a = b) && startsWithL as bs

/-- `occursIn pat l`: Python `pat in l` substring containment. -/
def occursIn (pat : List Char) : List Char → Bool
  | [] => pat.isEmpty
  | c :: cs => startsWithL pat (c :: cs) || occursIn pat cs

/-- A row matches when the lower-cased string form of some cell contains the
(already lower-cased) search term (src line 593). -/
def rowMatches (term : List Char) (row : Row) : Bool :=
  row.any (fun cell => occursIn term (lowerChars cell.toList))

/-- `search_data` (src lines 560-608).  Returns the new state and the
page now displayed (`none` when the view is left untouched, as when no
row matches).  An empty/whitespace term resets to page 0 and redisplays
the full table without touching `filtered_df`. -/
def searchData (raw : String) (s : ViewState) : ViewState × Option (List Row) :=
  let term := lowerChars (trimChars raw.toList)
  if term.isEmpty then
    let s' := { s with current_page := 0 }
    (s', some (pageSlice s'.df s'.current_page s'.rows_per_page))
  else
    let results := s.df.filter (rowMatches term)
    if results.isEmpty then (s, none)
    else
      let s' := { s with
        filtered := some results
        current_page := 0
        total_pages := max 1 (ceilDiv results.length s.rows_per_page) }
      (s', some (pageSlice results s'.current_page s'.rows_per_page))

/-- `clear_search` (src lines 610-616): delete `filtered_df`, reset to
page 0 and redisplay the full table. -/
def clearSearch (s : ViewState) : ViewState × Option (List Row) :=
  let s' := { s with filtered := none, current_page := 0 }
  (s', some (pageSlice s'.df s'.current_page s'.rows_per_page))

/-- What a redisplay shows: the filtered rows when `filtered_df` is
present (`display_filtered_data`), the full table otherwise
(`update_data_view`). -/
def displayOf (s : ViewState) : List Row :=
  match s.filtered with
  | some f => pageSlice f s.current_page s.rows_per_page
  | none => pageSlice s.df s.current_page s.rows_per_page

/-- `next_page` (src lines 669-675). -/
def nextPage (s : ViewState) : ViewState × Option (List Row) :=
  if s.current_page < s.total_pages - 1 then
    let s' := { s with current_page := s.current_page + 1 }
    (s', some (displayOf s'))
  else (s, none)

/-- `prev_page` (src lines 661-667). -/
def prevPage (s : ViewState) : ViewState × Option (List Row) :=
  if 0 < s.current_page then
    let s' := { s with current_page := s.current_page - 1 }
    (s', some (displayOf s'))
  else (s, none)

/-- `change_rows_per_page` (src lines 2144-2165): the new page size is
applied, `total_pages` is recomputed from `len(self.df)` — the full
table — `current_page` is clamped, and `update_data_view` redisplays
the full table. -/
def changeRowsPerPage (n : ℕ) (s : ViewState) : ViewState × Option (List Row) :=
  let tp := max 1 (ceilDiv s.df.length n)
  let s' := { s with
    rows_per_page := n
    total_pages := tp
    current_page := min s.current_page (tp - 1) }
  (s', some (pageSlice s'.df s'.current_page s'.rows_per_page))

/-- A 100-row table with an active 10-row filter. -/
def filterState : ViewState :=
  { df := List.replicate 100 ["z"]
    filtered := some (List.replicate 10 ["z"])
    current_page := 0
    rows_per_page := 10
    total_pages := 1 }

/-- C9 counterexample: with a 10-row filter active on a 100-row table,
changing the page size to 50 recomputes `total_pages` from the full
table (`ceil(100/50) = 2`), not from the active filtered row set
(`ceil(10/50) = 1`). -/
theorem changeRowsPerPage_ignores_filter :
    filterState.filtered = some (List.replicate 10 ["z"]) ∧
    (changeRowsPerPage 50 filterState).1.total_pages = 2 ∧
    ¬ (changeRowsPerPage 50 filterState).1.total_pages =
        max 1 (ceilDiv (List.replicate 10 (["z"] : Row)).length 50) := by
  refine ⟨rfl, rfl, ?_⟩
  decide

/-- C9 amended: while a filter is active, both next-page and
previous-page navigation display slices of the filtered row set, and
explicitly clearing the search drops the filter and resets to page 0
over the full table; but changing the page size recomputes
`total_pages = max(1, ceil(len(df)/n))` over the full table, clamps the
page index against that count, and redisplays the full table. -/
theorem viewState_paging_spec (s : ViewState) (f : List Row) (n : ℕ)
    (hf : s.filtered = some f) :
    ((nextPage s).1.filtered = some f ∧
      (s.current_page < s.total_pages - 1 →
        (nextPage s).2 = some (pageSlice f (s.current_page + 1) s.rows_per_page))) ∧
    ((prevPage s).1.filtered = some f ∧
      (0 < s.current_page →
        (prevPage s).2 = some (pageSlice f (s.current_page - 1) s.rows_per_page))) ∧
    ((changeRowsPerPage n s).1.total_pages = max 1 (ceilDiv s.df.length n) ∧
      (changeRowsPerPage n s).1.current_page =
        min s.current_page (max 1 (ceilDiv s.df.length n) - 1) ∧
      (changeRowsPerPage n s).2 = some (pageSlice s.df
        (min s.current_page (max 1 (ceilDiv s.df.length n) - 1)) n)) ∧
    ((clearSearch s).1.filtered = none ∧ (clearSearch s).1.current_page = 0 ∧
      (clearSearch s).2 = some (pageSlice s.df 0 s.rows_per_page)) := by
  refine ⟨⟨?_, fun h => ?_⟩, ⟨?_, fun h => ?_⟩, ⟨rfl, rfl, rfl⟩, rfl, rfl, rfl⟩
  · simp only [nextPage]
    split <;> simp [hf]
  · simp only [nextPage]
    rw [if_pos h]
    simp [displayOf, hf]
  · simp only [prevPage]
    split <;> simp [hf]
  · simp only [prevPage]
    rw [if_pos h]
    simp [displayOf, hf]

/-- A three-row table with a one-row filter active, page size 1. -/
def smallFilterState : ViewState :=
  { df := [["a"], ["b"], ["c"]]
    filtered := some [["a"], ["b"]]
    current_page := 0
    rows_per_page := 1
    total_pages := 2 }

/-- The same filtered table, currently on its second page. -/
def pagedFilterState : ViewState :=
  { df := [["a"], ["b"], ["c"]]
    filtered := some [["a"], ["b"]]
    current_page := 1
    rows_per_page := 1
    total_pages := 2 }

theorem viewState_paging_spec_witness :
    smallFilterState.filtered = some [["a"], ["b"]] ∧
    smallFilterState.current_page < smallFilterState.total_pages - 1 ∧
    (nextPage smallFilterState).2 =
      some (pageSlice [["a"], ["b"]] (smallFilterState.current_page + 1)
        smallFilterState.rows_per_page) ∧
    0 < pagedFilterState.current_page ∧
    (prevPage pagedFilterState).2 =
      some (pageSlice [["a"], ["b"]] (pagedFilterState.current_page - 1)
        pagedFilterState.rows_per_page) ∧
    (changeRowsPerPage 2 smallFilterState).1.total_pages =
      max 1 (ceilDiv smallFilterState.df.length 2) :=
  ⟨rfl, by decide,
   ((viewState_paging_spec smallFilterState [["a"], ["b"]] 2 rfl).1).2 (by decide),
   by decide,
   ((viewState_paging_spec pagedFilterState [["a"], ["b"]] 2 rfl).2.1).2 (by decide),
   ((viewState_paging_spec smallFilterState [["a"], ["b"]] 2 rfl).2.2.1).1⟩

/-- C10: an empty or whitespace-only search resets the view to page 0
and displays the full table, but leaves the stored `filtered_df` in
place, so the next page-navigation displays the previously filtered
rows; only `clear_search` removes the filter. -/
theorem emptySearch_keeps_filter (s : ViewState) (f : List Row) (raw : String)
    (hf : s.filtered = some f)
    (hempty : (lowerChars (trimChars raw.toList)).isEmpty = true) :
    ((searchData raw s).1.filtered = some f ∧
     (searchData raw s).1.current_page = 0 ∧
     (searchData raw s).2 = some (pageSlice s.df 0 s.rows_per_page)) ∧
    ((searchData raw s).1.current_page < (searchData raw s).1.total_pages - 1 →
      (nextPage (searchData raw s).1).2 =
        some (pageSlice f 1 (searchData raw s).1.rows_per_page)) ∧
    (clearSearch (searchData raw s).1).1.filtered = none := by
  have hsearch : searchData raw s =
      ({ s with current_page := 0 }, some (pageSlice s.df 0 s.rows_per_page)) := by
    simp only [searchData]
    rw [if_pos hempty]
  refine ⟨⟨?_, ?_, ?_⟩, fun h => ?_, ?_⟩
  · rw [hsearch]; exact hf
  · rw [hsearch]
  · rw [hsearch]
  · rw [hsearch] at h ⊢
    simp only [nextPage] at h ⊢
    rw [if_pos h]
    simp [displayOf, hf]
  · rw [hsearch]
    simp [clearSearch]

/-- Whitespace-only search issued on the small filtered state. -/
theorem emptySearch_keeps_filter_witness :
    smallFilterState.filtered = some [["a"], ["b"]] ∧
    (lowerChars (trimChars (String.toList " "))).isEmpty = true ∧
    ((searchData " " smallFilterState).1.filtered = some [["a"], ["b"]] ∧
     (searchData " " smallFilterState).2 =
       some (pageSlice smallFilterState.df 0 smallFilterState.rows_per_page)) ∧
    ((searchData " " smallFilterState).1.current_page <
        (searchData " " smallFilterState).1.total_pages - 1 →
      (nextPage (searchData " " smallFilterState).1).2 =
        some (pageSlice [["a"], ["b"]] 1 (searchData " " smallFilterState).1.rows_per_page)) :=
  have h := emptySearch_keeps_filter smallFilterState [["a"], ["b"]] " " rfl (by decide)
  ⟨rfl, by decide, ⟨h.1.1, h.1.2.2⟩, h.2.1⟩

end DataVis
